import Mathlib

/-!
Shallow embedding of the rollup WebAssembly plugin (`src/index.mjs`).

JS strings are Lean `String`s and byte buffers are `List Nat` with each byte
`< 256`.  The host and platform primitives the plugin calls
(`fs.promises.readFile`, `fs.statSync`, `WebAssembly.compile`,
Node `crypto` md5, Node `Buffer` base64, `this.resolve`, `this.emitFile`,
`this.error`) are modelled as explicit parameters of the hook functions, and
their side effects as an explicit event trace.
-/

namespace WasmPlugin

/-- `options.targetEnv` after validation: one of the two accepted strings. -/
inductive TargetEnv where
  | node
  | browser
deriving DecidableEq, Repr

/-- Validated plugin configuration after destructuring defaults
(source lines 123-126). -/
structure PluginConfig where
  maxFileSize : Nat
  targetEnv : TargetEnv
deriving DecidableEq, Repr

/-! ### Base64 (model of Node `Buffer` base64, RFC 4648 with padding)

`fs.promises.readFile(filePath, 'base64')` (source line 10) returns the byte
content encoded with the standard base64 alphabet and `=` padding. -/

/-- The 64-character base64 alphabet used by Node `Buffer`. -/
def b64Alphabet : List Char :=
  "ABCDEFGHIJKLMNOPQRSTUVWXYZabcdefghijklmnopqrstuvwxyz0123456789+/".data

/-- The base64 character for a 6-bit value. -/
def b64Char (n : Nat) : Char := b64Alphabet.getD n 'A'

/-- Index of a character in the base64 alphabet. -/
def b64Inv (c : Char) : Nat := b64Alphabet.indexOf c

/-- Base64 encoding of a byte sequence, three bytes to four characters,
with `=` padding on a final partial group. -/
def b64Encode : List Nat → List Char
  | [] => []
  | [b0] => [b64Char (b0 / 4), b64Char (b0 % 4 * 16), '=', '=']
  | [b0, b1] =>
      [b64Char (b0 / 4), b64Char (b0 % 4 * 16 + b1 / 16), b64Char (b1 % 16 * 4), '=']
  | b0 :: b1 :: b2 :: rest =>
      b64Char (b0 / 4) :: b64Char (b0 % 4 * 16 + b1 / 16) ::
      b64Char (b1 % 16 * 4 + b2 / 64) :: b64Char (b2 % 64) :: b64Encode rest

/-- Standard base64 decoding: four characters back to three bytes, a `=` in
the third or fourth position ending the stream with one or two bytes. -/
def b64Decode : List Char → List Nat
  | c0 :: c1 :: c2 :: c3 :: rest =>
      if c2 = '=' then [b64Inv c0 * 4 + b64Inv c1 / 16]
      else if c3 = '=' then
        [b64Inv c0 * 4 + b64Inv c1 / 16, b64Inv c1 % 16 * 16 + b64Inv c2 / 4]
      else
        (b64Inv c0 * 4 + b64Inv c1 / 16) ::
        (b64Inv c1 % 16 * 16 + b64Inv c2 / 4) ::
        (b64Inv c2 % 4 * 64 + b64Inv c3) :: b64Decode rest
  | _ => []

/-- `createBase64UriForWasm` (source lines 8-15): the data URI built from the
base64 encoding of the file content that was read. -/
def createBase64UriForWasm (content : List Nat) : String :=
  "data:application/wasm;base64," ++ String.mk (b64Encode content)

/-! ### MD5 (model of Node `crypto.createHash('md5')`) -/

/-- Addition of 32-bit words. -/
def wadd (a b : Nat) : Nat := (a + b) % 4294967296

/-- Bitwise complement of a 32-bit word. -/
def wnot (a : Nat) : Nat := 4294967295 - a % 4294967296

/-- Left rotation of a 32-bit word by `s` bits. -/
def rotl (x s : Nat) : Nat := x % 2 ^ (32 - s) * 2 ^ s + x / 2 ^ (32 - s)

/-- MD5 round function F. -/
def md5F (x y z : Nat) : Nat := Nat.lor (Nat.land x y) (Nat.land (wnot x) z)

/-- MD5 round function G. -/
def md5G (x y z : Nat) : Nat := Nat.lor (Nat.land x z) (Nat.land y (wnot z))

/-- MD5 round function H. -/
def md5H (x y z : Nat) : Nat := Nat.xor x (Nat.xor y z)

/-- MD5 round function I. -/
def md5I (x y z : Nat) : Nat := Nat.xor y (Nat.lor x (wnot z))

/-- MD5 per-round left-rotation amounts. -/
def md5S : List Nat :=
  [7, 12, 17, 22, 7, 12, 17, 22, 7, 12, 17, 22, 7, 12, 17, 22,
   5, 9, 14, 20, 5, 9, 14, 20, 5, 9, 14, 20, 5, 9, 14, 20,
   4, 11, 16, 23, 4, 11, 16, 23, 4, 11, 16, 23, 4, 11, 16, 23,
   6, 10, 15, 21, 6, 10, 15, 21, 6, 10, 15, 21, 6, 10, 15, 21]

/-- MD5 sine-derived round constants. -/
def md5K : List Nat :=
  [0xd76aa478, 0xe8c7b756, 0x242070db, 0xc1bdceee,
   0xf57c0faf, 0x4787c62a, 0xa8304613, 0xfd469501,
   0x698098d8, 0x8b44f7af, 0xffff5bb1, 0x895cd7be,
   0x6b901122, 0xfd987193, 0xa679438e, 0x49b40821,
   0xf61e2562, 0xc040b340, 0x265e5a51, 0xe9b6c7aa,
   0xd62f105d, 0x02441453, 0xd8a1e681, 0xe7d3fbc8,
   0x21e1cde6, 0xc33707d6, 0xf4d50d87, 0x455a14ed,
   0xa9e3e905, 0xfcefa3f8, 0x676f02d9, 0x8d2a4c8a,
   0xfffa3942, 0x8771f681, 0x6d9d6122, 0xfde5380c,
   0xa4beea44, 0x4bdecfa9, 0xf6bb4b60, 0xbebfbc70,
   0x289b7ec6, 0xeaa127fa, 0xd4ef3085, 0x04881d05,
   0xd9d4d039, 0xe6db99e5, 0x1fa27cf8, 0xc4ac5665,
   0xf4292244, 0x432aff97, 0xab9423a7, 0xfc93a039,
   0x655b59c3, 0x8f0ccc92, 0xffeff47d, 0x85845dd1,
   0x6fa87e4f, 0xfe2ce6e0, 0xa3014314, 0x4e0811a1,
   0xf7537e82, 0xbd3af235, 0x2ad7d2bb, 0xeb86d391]

/-- `k` little-endian bytes of a natural number. -/
def leBytes : Nat → Nat → List Nat
  | 0, _ => []
  | k + 1, n => n % 256 :: leBytes k (n / 256)

/-- A 32-bit word from up to four little-endian bytes. -/
def leWord (bs : List Nat) : Nat := bs.foldr (fun b acc => acc * 256 + b) 0

/-- MD5 padding: append `0x80`, zero bytes up to 56 mod 64, then the bit
length as eight little-endian bytes. -/
def md5Pad (msg : List Nat) : List Nat :=
  msg ++ [128] ++ List.replicate ((120 - (msg.length + 1) % 64) % 64) 0
      ++ leBytes 8 (msg.length * 8)

/-- One MD5 compression of a 64-byte chunk, `M j` being its `j`-th word. -/
def md5Chunk (M : Nat → Nat) (st : Nat × Nat × Nat × Nat) : Nat × Nat × Nat × Nat :=
  let step := fun (abcd : Nat × Nat × Nat × Nat) (i : Nat) =>
    let (a, b, c, d) := abcd
    let fg : Nat × Nat :=
      if i < 16 then (md5F b c d, i)
      else if i < 32 then (md5G b c d, (5 * i + 1) % 16)
      else if i < 48 then (md5H b c d, (3 * i + 5) % 16)
      else (md5I b c d, (7 * i) % 16)
    let tmp := wadd (wadd (wadd a fg.1) (md5K.getD i 0)) (M fg.2)
    (d, wadd b (rotl tmp (md5S.getD i 0)), b, c)
  let fin := (List.range 64).foldl step st
  (wadd st.1 fin.1, wadd st.2.1 fin.2.1, wadd st.2.2.1 fin.2.2.1, wadd st.2.2.2 fin.2.2.2)

/-- Fold MD5 compressions over successive 64-byte chunks. -/
def md5Loop (st : Nat × Nat × Nat × Nat) : List Nat → Nat × Nat × Nat × Nat
  | [] => st
  | b :: rest =>
      let chunk := (b :: rest).take 64
      let M := fun j => leWord ((chunk.drop (4 * j)).take 4)
      md5Loop (md5Chunk M st) ((b :: rest).drop 64)
  termination_by bs => bs.length
  decreasing_by simp [List.length_drop]; omega

/-- The 16-byte MD5 digest of a byte sequence. -/
def md5Digest (msg : List Nat) : List Nat :=
  let fin := md5Loop (0x67452301, 0xefcdab89, 0x98badcfe, 0x10325476) (md5Pad msg)
  leBytes 4 fin.1 ++ leBytes 4 fin.2.1 ++ leBytes 4 fin.2.2.1 ++ leBytes 4 fin.2.2.2

/-- Lowercase hex digit for a value below 16. -/
def hexDigit (n : Nat) : Char := "0123456789abcdef".data.getD n '0'

/-- Two lowercase hex characters of a byte. -/
def byteHex (b : Nat) : List Char := [hexDigit (b / 16 % 16), hexDigit (b % 16)]

/-- `crypto.createHash('md5').update(s).digest('hex')`: the 32-character
lowercase hex digest. -/
def md5Hex (msg : List Nat) : String := String.mk (((md5Digest msg).map byteHex).flatten)

/-- UTF-8 bytes of a string, as `crypto.update` uses for string input. -/
def strBytes (s : String) : List Nat := s.toUTF8.toList.map (fun b => b.toNat)

/-! ### String helpers, kept at the character-list level so that they
evaluate -/

/-- JS `str.endsWith(suffix)`. -/
def jsEndsWith (s suffix : String) : Bool := suffix.data.isSuffixOf s.data

/-- Split a character list on a separator character. -/
def splitOnChar (sep : Char) : List Char → List (List Char)
  | [] => [[]]
  | c :: cs =>
      match splitOnChar sep cs with
      | [] => [[]]
      | seg :: rest => if c = sep then [] :: seg :: rest else (c :: seg) :: rest

/-- Node `path.basename(p)` (posix): the last nonempty `/`-separated
segment. -/
def basename (p : String) : String :=
  String.mk ((((splitOnChar '/' p.data).filter (fun seg => seg ≠ [])).getLastD []))

/-- Node `path.basename(p, ext)`: also strips `ext` when it is a proper
suffix of the base name. -/
def basenameExt (p ext : String) : String :=
  let b := basename p
  if b ≠ ext ∧ jsEndsWith b ext then String.mk (b.data.take (b.data.length - ext.data.length))
  else b

/-- The hashed asset file name built in `resolveId` (source lines 146-150):
base name without the `.wasm` extension, a dash, the first 8 hex characters
of the md5 of the resolved path string, and `.wasm`. -/
def wasmAssetName (resolvedId : String) : String :=
  basenameExt resolvedId ".wasm" ++ "-"
    ++ String.mk ((md5Hex (strBytes resolvedId)).data.take 8) ++ ".wasm"

/-! ### `parseWasm` (source lines 20-56) -/

/-- One entry of the grouped import list (see the example at source
lines 36-48). -/
structure ImportGroup where
  from_ : String
  names : List String
deriving DecidableEq, Repr

/-- One step of the JS `Map` collection at source lines 29-34: append the
name to the existing group of the module, or create a new group at the end
(JS `Map` iterates keys in insertion order). -/
def insertImport (acc : List ImportGroup) (m n : String) : List ImportGroup :=
  match acc with
  | [] => [⟨m, [n]⟩]
  | g :: gs =>
      if g.from_ = m then ⟨g.from_, g.names ++ [n]⟩ :: gs
      else g :: insertImport gs m n

/-- The grouping of the import pairs performed by `parseWasm`. -/
def groupImports (pairs : List (String × String)) : List ImportGroup :=
  pairs.foldl (fun acc p => insertImport acc p.1 p.2) []

/-- The import and export surface that `WebAssembly.compile` together with
`WebAssembly.Module.imports` and `WebAssembly.Module.exports` recover from a
structurally valid binary: the declared `(module, name)` import pairs and the
export names, both in the binary's declaration order. -/
structure WasmModuleInfo where
  importPairs : List (String × String)
  exportNames : List String
deriving DecidableEq, Repr

/-- Result shape of `parseWasm` (source line 52). -/
structure ParseResult where
  imports : List ImportGroup
  exports : List String
deriving DecidableEq, Repr

/-- `parseWasm` (source lines 20-56), with the platform compiler abstracted:
on success group the import pairs and list the export names, on failure wrap
the cause. -/
def parseWasm (compile : List Nat → Except String WasmModuleInfo)
    (content : List Nat) : Except String ParseResult :=
  match compile content with
  | .error e => .error ("Failed to parse WASM file: " ++ e)
  | .ok m => .ok ⟨groupImports m.importPairs, m.exportNames⟩

/-! ### `generateWasmInitCode` (source lines 61-115) -/

/-- The fixed `initWasm` helper text at the head of the generated shim
(source lines 62-106), up to and including the comment line before the
namespace import statements. -/
def initWasmHelperText : String :=
  String.intercalate "\n"
    ["",
     "  const initWasm = async (imports = \x7b\x7d, wasmUrl) => \x7b",
     "    try \x7b",
     "      const instance = await (async () => \x7b",
     "        if (wasmUrl.startsWith('data:')) \x7b",
     "          const base64Content = wasmUrl.replace(/^data:.*?base64,/, '');",
     "",
     "          // Decode base64",
     "          const bytes = (() => \x7b",
     "            if (typeof Buffer === \"function\" && typeof Buffer.from === \"function\") \x7b",
     "              return Buffer.from(base64Content, \"base64\");",
     "            \x7d",
     "            if (typeof atob === \"function\") \x7b",
     "              const binaryString = atob(base64Content);",
     "              return Uint8Array.from(binaryString, char => char.charCodeAt(0));",
     "            \x7d",
     "            throw new Error(\"No available base64 decoder\");",
     "          \x7d)();",
     "",
     "          const result = await WebAssembly.instantiate(bytes, imports);",
     "          return result.instance;",
     "        \x7d",
     "",
     "        // Load from URL",
     "        const response = await fetch(wasmUrl);",
     "        const contentType = response.headers.get(\"Content-Type\") || \"\";",
     "",
     "        if (\"instantiateStreaming\" in WebAssembly &&",
     "            contentType.startsWith(\"application/wasm\")) \x7b",
     "          const result = await WebAssembly.instantiateStreaming(response, imports);",
     "          return result.instance;",
     "        \x7d",
     "",
     "        const buffer = await response.arrayBuffer();",
     "        const result = await WebAssembly.instantiate(buffer, imports);",
     "        return result.instance;",
     "      \x7d)();",
     "",
     "      return instance.exports;",
     "    \x7d catch (error) \x7b",
     "      throw new Error(\x60WASM initialization failed: \x24\x7berror.message\x7d\x60);",
     "    \x7d",
     "  \x7d;",
     "",
     "  // Import dependency modules",
     "  "]

/-- One `import * as importI from '...';` statement (source line 106). -/
def importDeclStmt (i : Nat) (g : ImportGroup) : String :=
  "import * as import" ++ toString i ++ " from '" ++ g.from_ ++ "';"

/-- The namespace import statements, one per group, in group order. -/
def importDecls (imports : List ImportGroup) : List String :=
  imports.enum.map fun p => importDeclStmt p.1 p.2

/-- One field of a per-module import object (source line 110): the declared
name bound to the member of the same name of the namespace binding. -/
def importObjectField (i : Nat) (n : String) : String :=
  "'" ++ n ++ "': import" ++ toString i ++ "." ++ n

/-- One top-level entry of the import object (source line 110), keyed by the
group's module specifier. -/
def importObjectEntry (i : Nat) (g : ImportGroup) : String :=
  "'" ++ g.from_ ++ "': \x7b "
    ++ String.intercalate ", " (g.names.map (importObjectField i)) ++ " \x7d"

/-- The top-level import object entries, one per group, in group order. -/
def importObjectEntries (imports : List ImportGroup) : List String :=
  imports.enum.map fun p => importObjectEntry p.1 p.2

/-- One re-export statement (source line 114). -/
def exportDeclStmt (n : String) : String :=
  "export const " ++ n ++ " = wasmModule." ++ n ++ ";"

/-- The re-export statements, one per export name, in export order. -/
def exportDecls (exports : List String) : List String := exports.map exportDeclStmt

/-- The fixed text between the namespace imports and the import object
(source lines 106-109). -/
def initCallHeadText : String :=
  "\n\n  // Initialize WASM module, passing in external imports\n  const wasmModule = await initWasm(\x7b\n    "

/-- `generateWasmInitCode` (source lines 61-115): the whole template
literal. -/
def generateWasmInitCode (imports : List ImportGroup) (exports : List String)
    (wasmUrl : String) : String :=
  initWasmHelperText
    ++ String.intercalate "\n" (importDecls imports)
    ++ initCallHeadText
    ++ String.intercalate ",\n" (importObjectEntries imports)
    ++ "\n  \x7d, '" ++ wasmUrl ++ "');\n\n  // Export WASM functions\n  "
    ++ String.intercalate "\n" (exportDecls exports)
    ++ "\n"

/-! ### The plugin constructor and the two hooks (source lines 122-191) -/

/-- A JS option value, as far as the validation code distinguishes them. -/
inductive JSValue where
  | num (n : Int)
  | str (s : String)
  | other
deriving DecidableEq, Repr

/-- The raw `options` object handed to `wasmPlugin`; `none` is an absent
property, so the destructuring default applies. -/
structure RawOptions where
  maxFileSize : Option JSValue := none
  targetEnv : Option JSValue := none
deriving DecidableEq, Repr

/-- `wasmPlugin` construction and validation (source lines 122-134):
destructure with defaults `maxFileSize = 14336`, `targetEnv = 'node'`, then
reject a `targetEnv` outside the two accepted strings and a `maxFileSize`
that is not a number or is negative, before any hook exists. -/
def wasmPlugin (opts : RawOptions) : Except String PluginConfig :=
  let maxFileSize := opts.maxFileSize.getD (.num 14336)
  let targetEnv := opts.targetEnv.getD (.str "node")
  if targetEnv ≠ JSValue.str "node" ∧ targetEnv ≠ JSValue.str "browser" then
    .error "targetEnv must be node or browser"
  else
    match maxFileSize with
    | .num n =>
        if n < 0 then .error "maxFileSize must be a non-negative number"
        else .ok ⟨n.toNat, if targetEnv = JSValue.str "node" then .node else .browser⟩
    | _ => .error "maxFileSize must be a non-negative number"

/-- Observable host and file-system effects of one hook invocation. -/
inductive Ev where
  | statSync (p : String)
  | readFile (p : String)
  | emitFile (fileName : String) (source : List Nat)
  | reportError (msg : String)
deriving DecidableEq, Repr

/-- What `resolveId` produces: its trace, the returned id (`null` when the
specifier is not handled or the host resolver fails), and the `wasmPath`
attached to the resolution metadata. -/
structure ResolveOut where
  trace : List Ev
  id : Option String
  metaWasmPath : Option String
deriving DecidableEq, Repr

/-- The `resolveId` hook (source lines 139-158): skip specifiers without the
`.wasm` extension, delegate to the host resolver, stat the resolved file,
and attach the hashed asset name when a positive threshold is exceeded. -/
def resolveId (cfg : PluginConfig) (resolver : String → Option String)
    (fsSize : String → Nat) (source : String) : ResolveOut :=
  if jsEndsWith source ".wasm" then
    match resolver source with
    | none => ⟨[], none, none⟩
    | some rid =>
        let size := fsSize rid
        if 0 < cfg.maxFileSize ∧ cfg.maxFileSize < size then
          ⟨[.statSync rid], some rid, some (wasmAssetName rid)⟩
        else ⟨[.statSync rid], some rid, none⟩
  else ⟨[], none, none⟩

/-- `shouldInline` (source line 166): inline when the file is within a
positive threshold or the target environment is node. -/
def shouldInline (cfg : PluginConfig) (size : Nat) : Bool :=
  (if cfg.maxFileSize = 0 then false else decide (size ≤ cfg.maxFileSize))
    || decide (cfg.targetEnv = TargetEnv.node)

/-- The placement decision of one load (source lines 166 and 174). -/
inductive PlacementDecision where
  | Inline
  | External
deriving DecidableEq, Repr

/-- The placement decision as a function of the configuration and the stat
size. -/
def placement (cfg : PluginConfig) (size : Nat) : PlacementDecision :=
  if shouldInline cfg size then .Inline else .External

/-- What the `load` hook produces. -/
inductive LoadResult where
  | skipped
  | errored (msg : String)
  | code (src : String)
deriving DecidableEq, Repr

/-- Trace and result of one `load` invocation. -/
structure LoadOut where
  trace : List Ev
  result : LoadResult
deriving DecidableEq, Repr

/-- The `load` hook (source lines 160-189).  `fsContent` is the file system;
`stats.size` is the byte length of the content.  `Promise.all` runs
`parseWasm` (which reads the file) and, when inlining,
`createBase64UriForWasm` (which reads it again).  In the external branch,
`this.resolve(id)` re-runs the plugin resolution (another stat, recovering
`meta.wasmPath`), the file is read once more for `emitFile`, and the asset
is emitted before the generated code referencing it is returned.  A parse
failure is caught and reported through `this.error`. -/
def load (cfg : PluginConfig) (compile : List Nat → Except String WasmModuleInfo)
    (fsContent : String → List Nat) (id : String) : LoadOut :=
  if jsEndsWith id ".wasm" then
    let content := fsContent id
    let size := content.length
    let inl := shouldInline cfg size
    let readEvents := if inl then [Ev.readFile id, Ev.readFile id] else [Ev.readFile id]
    match parseWasm compile content with
    | .error e =>
        ⟨Ev.statSync id :: readEvents ++ [.reportError ("Failed to load WASM: " ++ e)],
         .errored ("Failed to load WASM: " ++ e)⟩
    | .ok pr =>
        if inl then
          ⟨Ev.statSync id :: readEvents,
           .code (generateWasmInitCode pr.imports pr.exports (createBase64UriForWasm content))⟩
        else
          let meta := if 0 < cfg.maxFileSize ∧ cfg.maxFileSize < size
            then some (wasmAssetName id) else none
          let fileName := meta.getD (basename id)
          ⟨Ev.statSync id :: readEvents
             ++ [Ev.statSync id, Ev.readFile id, .emitFile fileName content],
           .code (generateWasmInitCode pr.imports pr.exports fileName)⟩
  else ⟨[], .skipped⟩

/-- Whether an event is a file-system read. -/
def Ev.isRead : Ev → Bool
  | .readFile _ => true
  | _ => false

/-- Whether an event is a host error report. -/
def Ev.isReport : Ev → Bool
  | .reportError _ => true
  | _ => false

/-! ### Spec-side descriptions -/

/-- First-seen deduplication of a list, following the spec sentence that the
first occurrence of a module creates its group and later occurrences append
to it. -/
def dedupFirst (l : List String) : List String :=
  l.foldl (fun acc m => if m ∈ acc then acc else acc ++ [m]) []

/-! ### Base64 lemmas -/

theorem b64Inv_b64Char : ∀ n < 64, b64Inv (b64Char n) = n := by decide

theorem b64Char_ne_pad : ∀ n < 64, b64Char n ≠ '=' := by decide

theorem b64_roundtrip : ∀ bs : List Nat, (∀ b ∈ bs, b < 256) →
    b64Decode (b64Encode bs) = bs
  | [], _ => rfl
  | [b0], h => by
      have h0 : b0 < 256 := h b0 (by simp)
      have e0 := b64Inv_b64Char (b0 / 4) (by omega)
      have e1 := b64Inv_b64Char (b0 % 4 * 16) (by omega)
      have d1 : b0 % 4 * 16 / 16 = b0 % 4 := by omega
      simp only [b64Encode, b64Decode, eq_self_iff_true, if_true, e0, e1, d1,
        List.cons.injEq, and_true]
      omega
  | [b0, b1], h => by
      have h0 : b0 < 256 := h b0 (by simp)
      have h1 : b1 < 256 := h b1 (by simp)
      have e0 := b64Inv_b64Char (b0 / 4) (by omega)
      have e1 := b64Inv_b64Char (b0 % 4 * 16 + b1 / 16) (by omega)
      have e2 := b64Inv_b64Char (b1 % 16 * 4) (by omega)
      have n2 := b64Char_ne_pad (b1 % 16 * 4) (by omega)
      have d1 : (b0 % 4 * 16 + b1 / 16) / 16 = b0 % 4 := by omega
      have d2 : (b0 % 4 * 16 + b1 / 16) % 16 = b1 / 16 := by omega
      have d3 : b1 % 16 * 4 / 4 = b1 % 16 := by omega
      simp only [b64Encode, b64Decode, if_neg n2, eq_self_iff_true, if_true, e0, e1, e2,
        d1, d2, d3, List.cons.injEq, and_true]
      omega
  | b0 :: b1 :: b2 :: b3 :: rest, h => by
      have h0 : b0 < 256 := h b0 (by simp)
      have h1 : b1 < 256 := h b1 (by simp)
      have h2 : b2 < 256 := h b2 (by simp)
      have e0 := b64Inv_b64Char (b0 / 4) (by omega)
      have e1 := b64Inv_b64Char (b0 % 4 * 16 + b1 / 16) (by omega)
      have e2 := b64Inv_b64Char (b1 % 16 * 4 + b2 / 64) (by omega)
      have e3 := b64Inv_b64Char (b2 % 64) (by omega)
      have n2 := b64Char_ne_pad (b1 % 16 * 4 + b2 / 64) (by omega)
      have n3 := b64Char_ne_pad (b2 % 64) (by omega)
      have ih := b64_roundtrip (b3 :: rest) (fun b hb => h b (by simp at hb ⊢; tauto))
      simp only [b64Encode] at ih ⊢
      simp only [b64Decode, if_neg n2, if_neg n3, e0, e1, e2, e3, ih]
      simp only [List.cons.injEq, and_true]
      refine ⟨by omega, by omega, by omega⟩
  | [b0, b1, b2], h => by
      have h0 : b0 < 256 := h b0 (by simp)
      have h1 : b1 < 256 := h b1 (by simp)
      have h2 : b2 < 256 := h b2 (by simp)
      have e0 := b64Inv_b64Char (b0 / 4) (by omega)
      have e1 := b64Inv_b64Char (b0 % 4 * 16 + b1 / 16) (by omega)
      have e2 := b64Inv_b64Char (b1 % 16 * 4 + b2 / 64) (by omega)
      have e3 := b64Inv_b64Char (b2 % 64) (by omega)
      have n2 := b64Char_ne_pad (b1 % 16 * 4 + b2 / 64) (by omega)
      have n3 := b64Char_ne_pad (b2 % 64) (by omega)
      simp only [b64Encode, b64Decode, if_neg n2, if_neg n3, e0, e1, e2, e3]
      simp only [List.cons.injEq, and_true]
      refine ⟨by omega, by omega, by omega⟩

/-! ### Import grouping lemmas -/

theorem insertImport_map_not_mem (acc : List ImportGroup) (m n : String)
    (h : ∀ g ∈ acc, g.from_ ≠ m) :
    insertImport acc m n = acc ++ [⟨m, [n]⟩] := by
  induction acc with
  | nil => simp [insertImport]
  | cons g gs ih =>
      have hg : g.from_ ≠ m := h g (by simp)
      simp only [insertImport, if_neg hg, List.cons_append, List.cons.injEq, true_and]
      exact ih fun g' hg' => h g' (by simp [hg'])

theorem insertImport_map_mem (acc : List ImportGroup) (m n : String)
    (h : m ∈ acc.map ImportGroup.from_) :
    (insertImport acc m n).map ImportGroup.from_ = acc.map ImportGroup.from_ := by
  induction acc with
  | nil => simp at h
  | cons g gs ih =>
      by_cases hg : g.from_ = m
      · simp [insertImport, hg]
      · have hmem : m ∈ gs.map ImportGroup.from_ := by
          simp only [List.map_cons, List.mem_cons] at h
          rcases h with h | h
          · exact absurd h.symm hg
          · exact h
        simp [insertImport, hg, ih hmem]

theorem insertImport_mem_cases (acc : List ImportGroup) (m n : String)
    (hnd : (acc.map ImportGroup.from_).Nodup) :
    ∀ g' ∈ insertImport acc m n,
      (g'.from_ ≠ m ∧ g' ∈ acc)
      ∨ (g'.from_ = m ∧ ∃ g, g ∈ acc ∧ g.from_ = m ∧ g'.names = g.names ++ [n])
      ∨ (g'.from_ = m ∧ (∀ g ∈ acc, g.from_ ≠ m) ∧ g'.names = [n]) := by
  induction acc with
  | nil =>
      intro g' hg'
      simp only [insertImport, List.mem_singleton] at hg'
      subst hg'
      right; right
      exact ⟨rfl, by simp, rfl⟩
  | cons g gs ih =>
      intro g' hg'
      by_cases hg : g.from_ = m
      · simp only [insertImport, if_pos hg, List.mem_cons] at hg'
        rcases hg' with rfl | hmem
        · right; left
          exact ⟨hg, g, by simp, hg, rfl⟩
        · left
          have hnotin : g.from_ ∉ gs.map ImportGroup.from_ :=
            (List.nodup_cons.mp (by simpa using hnd)).1
          have : g'.from_ ≠ m := by
            intro hEq
            exact hnotin (hg ▸ hEq ▸ List.mem_map_of_mem ImportGroup.from_ hmem)
          exact ⟨this, by simp [hmem]⟩
      · simp only [insertImport, if_neg hg, List.mem_cons] at hg'
        rcases hg' with rfl | hmem
        · left; exact ⟨hg, by simp⟩
        · have hnd' : (gs.map ImportGroup.from_).Nodup :=
            (List.nodup_cons.mp (by simpa using hnd)).2
          rcases ih hnd' g' hmem with ⟨h1, h2⟩ | ⟨h1, g0, hg0, h2, h3⟩ | ⟨h1, h2, h3⟩
          · left; exact ⟨h1, by simp [h2]⟩
          · right; left; exact ⟨h1, g0, by simp [hg0], h2, h3⟩
          · right; right
            refine ⟨h1, ?_, h3⟩
            intro g0 hg0
            simp only [List.mem_cons] at hg0
            rcases hg0 with rfl | hg0
            · exact hg
            · exact h2 g0 hg0

theorem groupImports_append (pairs : List (String × String)) (m n : String) :
    groupImports (pairs ++ [(m, n)]) = insertImport (groupImports pairs) m n := by
  simp [groupImports, List.foldl_append]

theorem dedupFirst_append (l : List String) (m : String) :
    dedupFirst (l ++ [m])
      = if m ∈ dedupFirst l then dedupFirst l else dedupFirst l ++ [m] := by
  simp [dedupFirst, List.foldl_append]

theorem mem_dedupFirst (l : List String) (a : String) : a ∈ dedupFirst l ↔ a ∈ l := by
  induction l using List.reverseRecOn with
  | nil => simp [dedupFirst]
  | append_singleton l m ih =>
      rw [dedupFirst_append]
      by_cases hm : m ∈ dedupFirst l
      · simp only [if_pos hm, List.mem_append, List.mem_singleton, ih]
        constructor
        · exact fun h => Or.inl h
        · rintro (h | rfl)
          · exact h
          · exact ih.mp hm
      · simp [if_neg hm, ih]

theorem filter_singleton_pair (m n s : String) :
    (([(m, n)] : List (String × String)).filter (fun q => q.1 = s))
      = if m = s then [(m, n)] else [] := by
  by_cases h : m = s <;> simp [h]

theorem groupImports_spec (pairs : List (String × String)) :
    ((groupImports pairs).map ImportGroup.from_).Nodup
    ∧ (groupImports pairs).map ImportGroup.from_ = dedupFirst (pairs.map Prod.fst)
    ∧ ∀ g ∈ groupImports pairs,
        g.names = (pairs.filter (fun p => p.1 = g.from_)).map Prod.snd := by
  induction pairs using List.reverseRecOn with
  | nil => simp [groupImports, dedupFirst]
  | append_singleton pairs p ih =>
      obtain ⟨ihnd, ihfrom, ihnames⟩ := ih
      obtain ⟨m, n⟩ := p
      rw [groupImports_append]
      by_cases hm : m ∈ (groupImports pairs).map ImportGroup.from_
      · have hmap := insertImport_map_mem (groupImports pairs) m n hm
        refine ⟨hmap ▸ ihnd, ?_, ?_⟩
        · rw [hmap, ihfrom]
          simp only [List.map_append, List.map_cons, List.map_nil]
          rw [dedupFirst_append, if_pos (ihfrom ▸ hm)]
        · intro g' hg'
          rcases insertImport_mem_cases (groupImports pairs) m n ihnd g' hg'
            with ⟨h1, h2⟩ | ⟨h1, g0, hg0, h2, h3⟩ | ⟨h1, h2, h3⟩
          · rw [List.filter_append, ihnames g' h2, filter_singleton_pair,
              if_neg (fun hEq => h1 hEq.symm), List.append_nil]
          · rw [h3, ihnames g0 hg0, h1, h2, List.filter_append, List.map_append,
              filter_singleton_pair, if_pos rfl]
            simp
          · exfalso
            rcases List.mem_map.mp hm with ⟨g0, hg0, hEq⟩
            exact h2 g0 hg0 hEq
      · have hnomem : ∀ g ∈ groupImports pairs, g.from_ ≠ m := by
          intro g hg hEq
          exact hm (hEq ▸ List.mem_map_of_mem ImportGroup.from_ hg)
        have hmap := insertImport_map_not_mem (groupImports pairs) m n hnomem
        rw [hmap]
        refine ⟨?_, ?_, ?_⟩
        · simp only [List.map_append, List.map_cons, List.map_nil]
          rw [List.nodup_append]
          exact ⟨ihnd, List.nodup_singleton m, by simpa using hm⟩
        · simp only [List.map_append, List.map_cons, List.map_nil]
          rw [dedupFirst_append, if_neg (ihfrom ▸ hm), ihfrom]
        · intro g' hg'
          simp only [List.mem_append, List.mem_singleton] at hg'
          rcases hg' with hg' | rfl
          · rw [List.filter_append, ihnames g' hg', filter_singleton_pair,
              if_neg (fun hEq => hnomem g' hg' hEq.symm), List.append_nil]
          · have hfil : pairs.filter (fun q => q.1 = m) = [] := by
              rw [List.filter_eq_nil_iff]
              intro q hq
              simp only [decide_eq_true_eq]
              intro hEq
              have : m ∈ pairs.map Prod.fst := hEq ▸ List.mem_map_of_mem Prod.fst hq
              rw [← mem_dedupFirst, ← ihfrom] at this
              exact hm this
            simp only [List.filter_append, hfil, List.nil_append,
              filter_singleton_pair, if_pos rfl]
            simp

/-! ### Enumeration and digest-shape lemmas -/

theorem enumFrom_map_eq_zipWith {α β : Type} (l : List α) (k : Nat) (f : Nat × α → β) :
    (List.enumFrom k l).map f
      = List.zipWith (fun i a => f (i, a)) (List.range' k l.length) l := by
  induction l generalizing k with
  | nil => simp
  | cons a l ih => simp [List.range'_succ, ih (k + 1)]

theorem enum_map_eq_zipWith {α β : Type} (l : List α) (f : Nat × α → β) :
    l.enum.map f = List.zipWith (fun i a => f (i, a)) (List.range l.length) l := by
  rw [List.enum, List.range_eq_range']
  exact enumFrom_map_eq_zipWith l 0 f

theorem length_leBytes (k n : Nat) : (leBytes k n).length = k := by
  induction k generalizing n with
  | zero => rfl
  | succ k ih => simp [leBytes, ih]

theorem length_md5Digest (msg : List Nat) : (md5Digest msg).length = 16 := by
  simp [md5Digest, length_leBytes]

theorem length_md5Hex (msg : List Nat) : (md5Hex msg).data.length = 32 := by
  have : ∀ d : List Nat, ((d.map byteHex).flatten).length = 2 * d.length := by
    intro d
    induction d with
    | nil => rfl
    | cons b d ih => simp [byteHex, ih]; ring
  show (((md5Digest msg).map byteHex).flatten).length = 32
  rw [this, length_md5Digest]

theorem hexDigit_mem (n : Nat) : hexDigit n ∈ "0123456789abcdef".data := by
  by_cases h : n < 16
  · interval_cases n <;> decide
  · have : hexDigit n = '0' := by
      unfold hexDigit
      rw [List.getD_eq_default]
      simpa using by omega
    rw [this]
    decide

theorem md5Hex_chars (msg : List Nat) :
    ∀ c ∈ (md5Hex msg).data, c ∈ "0123456789abcdef".data := by
  intro c hc
  have hc' : c ∈ ((md5Digest msg).map byteHex).flatten := hc
  rw [List.mem_flatten] at hc'
  obtain ⟨l, hl, hcl⟩ := hc'
  rw [List.mem_map] at hl
  obtain ⟨b, _, rfl⟩ := hl
  simp only [byteHex, List.mem_cons, List.not_mem_nil, or_false] at hcl
  rcases hcl with rfl | rfl
  · exact hexDigit_mem _
  · exact hexDigit_mem _

/-! ### Claim theorems -/

/-- C1: the placement decision is a pure function of the stat size and the
configuration: `targetEnv = node` gives `Inline` for every size and the load
hook never emits an asset; `browser` with `maxFileSize = 0` gives `External`
for every size; `browser` with a positive `maxFileSize` gives `Inline`
exactly when the size is within the threshold. -/
theorem c1_placement_policy (cfg : PluginConfig) (size : Nat)
    (compile : List Nat → Except String WasmModuleInfo)
    (fs : String → List Nat) (id : String) :
    (cfg.targetEnv = TargetEnv.node → placement cfg size = PlacementDecision.Inline)
    ∧ (cfg.targetEnv = TargetEnv.browser → cfg.maxFileSize = 0 →
        placement cfg size = PlacementDecision.External)
    ∧ (cfg.targetEnv = TargetEnv.browser → 0 < cfg.maxFileSize →
        (placement cfg size = PlacementDecision.Inline ↔ size ≤ cfg.maxFileSize))
    ∧ (cfg.targetEnv = TargetEnv.node →
        ∀ e ∈ (load cfg compile fs id).trace, ∀ f s, e ≠ Ev.emitFile f s) := by
  refine ⟨?_, ?_, ?_, ?_⟩
  · intro h
    simp [placement, shouldInline, h]
  · intro h h0
    simp [placement, shouldInline, h, h0]
  · intro h hpos
    by_cases hle : size ≤ cfg.maxFileSize
    · simp [placement, shouldInline, h, hpos.ne', hle]
    · simp [placement, shouldInline, h, hpos.ne', hle]
  · intro h e he f s hEq
    subst hEq
    have hinl : ∀ n, shouldInline cfg n = true := by
      intro n
      simp [shouldInline, h]
    by_cases hid : jsEndsWith id ".wasm"
    · rcases hpr : parseWasm compile (fs id) with e0 | pr
      · simp [load, hid, hinl, hpr] at he
      · simp [load, hid, hinl, hpr] at he
    · simp [load, hid] at he

/-- C1 witness: with the default node configuration a very large size is
still placed `Inline`. -/
theorem c1_placement_policy_witness :
    placement ⟨14336, TargetEnv.node⟩ 999999 = PlacementDecision.Inline :=
  (c1_placement_policy ⟨14336, TargetEnv.node⟩ 999999
    (fun _ => Except.error "") (fun _ => []) "a.wasm").1 rfl

/-- C2: `parseWasm` groups the import pairs by declaring module in
first-seen order, each pair appending its name to its module group in
declaration order with duplicates preserved, and the group modules are
pairwise distinct; plus the concrete example from the spec. -/
theorem c2_parse_groups (compile : List Nat → Except String WasmModuleInfo)
    (content : List Nat) (m : WasmModuleInfo) (hc : compile content = Except.ok m) :
    parseWasm compile content = Except.ok ⟨groupImports m.importPairs, m.exportNames⟩
    ∧ ((groupImports m.importPairs).map ImportGroup.from_).Nodup
    ∧ (groupImports m.importPairs).map ImportGroup.from_
        = dedupFirst (m.importPairs.map Prod.fst)
    ∧ (∀ g ∈ groupImports m.importPairs,
        g.names = (m.importPairs.filter (fun p => p.1 = g.from_)).map Prod.snd)
    ∧ groupImports [("m1", "a"), ("m1", "b"), ("m2", "c")]
        = [⟨"m1", ["a", "b"]⟩, ⟨"m2", ["c"]⟩]
    ∧ groupImports [("env", "f"), ("env", "f")] = [⟨"env", ["f", "f"]⟩] := by
  obtain ⟨h1, h2, h3⟩ := groupImports_spec m.importPairs
  exact ⟨by simp [parseWasm, hc], h1, h2, h3, by decide, by decide⟩

/-- C2 witness: the grouping facts at a concrete compiled module whose
declared pairs are `[(m1,a),(m1,b),(m2,c)]`. -/
theorem c2_parse_groups_witness :
    parseWasm (fun _ => Except.ok ⟨[("m1", "a"), ("m1", "b"), ("m2", "c")], ["add"]⟩) []
      = Except.ok ⟨groupImports [("m1", "a"), ("m1", "b"), ("m2", "c")], ["add"]⟩
    ∧ groupImports [("m1", "a"), ("m1", "b"), ("m2", "c")]
        = [⟨"m1", ["a", "b"]⟩, ⟨"m2", ["c"]⟩] :=
  ⟨(c2_parse_groups (fun _ => Except.ok ⟨[("m1", "a"), ("m1", "b"), ("m2", "c")], ["add"]⟩)
      [] ⟨[("m1", "a"), ("m1", "b"), ("m2", "c")], ["add"]⟩ rfl).1,
   (c2_parse_groups (fun _ => Except.ok ⟨[("m1", "a"), ("m1", "b"), ("m2", "c")], ["add"]⟩)
      [] ⟨[("m1", "a"), ("m1", "b"), ("m2", "c")], ["add"]⟩ rfl).2.2.2.2.1⟩

/-- C3: the generated shim decomposes into the fixed helper, one namespace
binding statement per group indexed in group order, the import object whose
entries are keyed by each group's module with each name bound to the member
of the same name of that group's namespace binding, the URL, and one
verbatim re-export statement per export name in export order. -/
theorem c3_shim_structure (imports : List ImportGroup) (exports : List String)
    (wasmUrl : String) :
    generateWasmInitCode imports exports wasmUrl
      = initWasmHelperText
        ++ String.intercalate "\n"
            (List.zipWith importDeclStmt (List.range imports.length) imports)
        ++ initCallHeadText
        ++ String.intercalate ",\n"
            (List.zipWith importObjectEntry (List.range imports.length) imports)
        ++ "\n  \x7d, '" ++ wasmUrl ++ "');\n\n  // Export WASM functions\n  "
        ++ String.intercalate "\n" (exports.map exportDeclStmt)
        ++ "\n"
    ∧ importDecls imports = List.zipWith importDeclStmt (List.range imports.length) imports
    ∧ importObjectEntries imports
        = List.zipWith importObjectEntry (List.range imports.length) imports
    ∧ exportDecls exports = exports.map exportDeclStmt := by
  have h1 : importDecls imports
      = List.zipWith importDeclStmt (List.range imports.length) imports := by
    rw [importDecls, enum_map_eq_zipWith]
  have h2 : importObjectEntries imports
      = List.zipWith importObjectEntry (List.range imports.length) imports := by
    rw [importObjectEntries, enum_map_eq_zipWith]
  exact ⟨by simp only [generateWasmInitCode, h1, h2, exportDecls], h1, h2, rfl⟩

/-- C6: the inline delivery URL is the `data:application/wasm;base64,`
scheme followed by the base64 payload, and decoding that payload gives back
exactly the original bytes. -/
theorem c6_inline_data_uri (content : List Nat) (h : ∀ b ∈ content, b < 256) :
    (createBase64UriForWasm content).data
      = "data:application/wasm;base64,".data ++ b64Encode content
    ∧ b64Decode (b64Encode content) = content :=
  ⟨rfl, b64_roundtrip content h⟩

/-- C6 witness: the round trip on the four magic bytes of a wasm header. -/
theorem c6_inline_data_uri_witness :
    b64Decode (b64Encode [0, 97, 115, 109]) = [0, 97, 115, 109] :=
  (c6_inline_data_uri [0, 97, 115, 109] (by decide)).2

/-- C9: construction validates once: empty options give the defaults
`maxFileSize = 14336`, `targetEnv = node`; a provided `targetEnv` outside
the two accepted strings, a negative numeric `maxFileSize`, or a
non-numeric `maxFileSize` each make `wasmPlugin` a configuration error
(so no hooks exist and no file is processed), and an accepted
construction applies the documented defaults. -/
theorem c9_config_validation (opts : RawOptions) :
    wasmPlugin {} = Except.ok ⟨14336, TargetEnv.node⟩
    ∧ (∀ v, opts.targetEnv = some v →
        v ≠ JSValue.str "node" → v ≠ JSValue.str "browser" →
        ∃ msg, wasmPlugin opts = Except.error msg)
    ∧ (∀ n : Int, opts.maxFileSize = some (JSValue.num n) → n < 0 →
        ∃ msg, wasmPlugin opts = Except.error msg)
    ∧ (∀ v, opts.maxFileSize = some v → (∀ n : Int, v ≠ JSValue.num n) →
        ∃ msg, wasmPlugin opts = Except.error msg)
    ∧ (opts.targetEnv = none → opts.maxFileSize = none →
        wasmPlugin opts = Except.ok ⟨14336, TargetEnv.node⟩) := by
  refine ⟨rfl, ?_, ?_, ?_, ?_⟩
  · intro v hv h1 h2
    refine ⟨"targetEnv must be node or browser", ?_⟩
    simp only [wasmPlugin, hv, Option.getD_some]
    rw [if_pos ⟨h1, h2⟩]
  · intro n hn hneg
    by_cases hte : (opts.targetEnv.getD (JSValue.str "node")) ≠ JSValue.str "node"
        ∧ (opts.targetEnv.getD (JSValue.str "node")) ≠ JSValue.str "browser"
    · refine ⟨"targetEnv must be node or browser", ?_⟩
      simp only [wasmPlugin]
      rw [if_pos hte]
    · refine ⟨"maxFileSize must be a non-negative number", ?_⟩
      simp only [wasmPlugin, hn, Option.getD_some]
      rw [if_neg hte, if_pos hneg]
  · intro v hv hnum
    by_cases hte : (opts.targetEnv.getD (JSValue.str "node")) ≠ JSValue.str "node"
        ∧ (opts.targetEnv.getD (JSValue.str "node")) ≠ JSValue.str "browser"
    · refine ⟨"targetEnv must be node or browser", ?_⟩
      simp only [wasmPlugin]
      rw [if_pos hte]
    · refine ⟨"maxFileSize must be a non-negative number", ?_⟩
      simp only [wasmPlugin, hv, Option.getD_some]
      rw [if_neg hte]
  · intro h1 h2
    simp only [wasmPlugin, h1, h2]
    rfl

/-- C9 witness: an invalid target environment string is rejected at
construction. -/
theorem c9_config_validation_witness :
    ∃ msg, wasmPlugin ⟨none, some (JSValue.str "deno")⟩ = Except.error msg :=
  (c9_config_validation ⟨none, some (JSValue.str "deno")⟩).2.1
    (JSValue.str "deno") rfl (by decide) (by decide)

/-- C10: a specifier or id that does not end in `.wasm` makes both hooks
return null, with no trace events, no resolution, no code and no asset. -/
theorem c10_non_wasm_ignored (cfg : PluginConfig) (resolver : String → Option String)
    (fsSize : String → Nat) (compile : List Nat → Except String WasmModuleInfo)
    (fs : String → List Nat) (source id : String)
    (hs : jsEndsWith source ".wasm" = false) (hid : jsEndsWith id ".wasm" = false) :
    resolveId cfg resolver fsSize source = ⟨[], none, none⟩
    ∧ load cfg compile fs id = ⟨[], LoadResult.skipped⟩ := by
  constructor
  · simp [resolveId, hs]
  · simp [load, hid]

/-- C10 witness: concrete non-wasm specifiers are ignored by both hooks. -/
theorem c10_non_wasm_ignored_witness :
    resolveId ⟨14336, TargetEnv.node⟩ (fun _ => none) (fun _ => 0) "a.js"
        = ⟨[], none, none⟩
    ∧ load ⟨14336, TargetEnv.node⟩ (fun _ => Except.error "") (fun _ => []) "b.txt"
        = ⟨[], LoadResult.skipped⟩ :=
  c10_non_wasm_ignored ⟨14336, TargetEnv.node⟩ (fun _ => none) (fun _ => 0)
    (fun _ => Except.error "") (fun _ => []) "a.js" "b.txt" (by decide) (by decide)

/-- C8: a byte sequence the platform compiler rejects makes `parseWasm`
fail with an error wrapping the cause; `load` then produces no code,
reports through the host error reporter exactly once, and the reported
message wraps the parse error which wraps the underlying cause. -/
theorem c8_parse_failure (cfg : PluginConfig)
    (compile : List Nat → Except String WasmModuleInfo)
    (fs : String → List Nat) (id : String)
    (hw : jsEndsWith id ".wasm" = true) (e : String)
    (hbad : compile (fs id) = Except.error e) :
    parseWasm compile (fs id) = Except.error ("Failed to parse WASM file: " ++ e)
    ∧ (load cfg compile fs id).result
        = LoadResult.errored ("Failed to load WASM: " ++ ("Failed to parse WASM file: " ++ e))
    ∧ ((load cfg compile fs id).trace.countP Ev.isReport) = 1
    ∧ ∀ s, (load cfg compile fs id).result ≠ LoadResult.code s := by
  have hp : parseWasm compile (fs id)
      = Except.error ("Failed to parse WASM file: " ++ e) := by
    simp [parseWasm, hbad]
  by_cases hinl : shouldInline cfg (fs id).length
  · refine ⟨hp, ?_, ?_, ?_⟩
    · simp [load, hw, hp, hinl]
    · simp [load, hw, hp, hinl, Ev.isReport]
    · intro s
      simp [load, hw, hp, hinl]
  · refine ⟨hp, ?_, ?_, ?_⟩
    · simp [load, hw, hp, hinl]
    · simp [load, hw, hp, hinl, Ev.isReport]
    · intro s
      simp [load, hw, hp, hinl]

/-- C8 witness: a concrete rejected input is reported exactly once and
yields no code. -/
theorem c8_parse_failure_witness :
    parseWasm (fun _ => Except.error "bad magic") ((fun _ => [1, 2, 3]) "/x/a.wasm")
      = Except.error ("Failed to parse WASM file: " ++ "bad magic")
    ∧ ((load ⟨14336, TargetEnv.node⟩ (fun _ => Except.error "bad magic")
        (fun _ => [1, 2, 3]) "/x/a.wasm").trace.countP Ev.isReport) = 1 :=
  ⟨(c8_parse_failure ⟨14336, TargetEnv.node⟩ (fun _ => Except.error "bad magic")
      (fun _ => [1, 2, 3]) "/x/a.wasm" (by decide) "bad magic" rfl).1,
   (c8_parse_failure ⟨14336, TargetEnv.node⟩ (fun _ => Except.error "bad magic")
      (fun _ => [1, 2, 3]) "/x/a.wasm" (by decide) "bad magic" rfl).2.2.1⟩

/-- C7 counterexample: the claim says one load reads the file exactly once;
a concrete inline load performs two file-system reads (one in `parseWasm`,
one in `createBase64UriForWasm`). -/
theorem c7_counterexample :
    ((load ⟨14336, TargetEnv.node⟩ (fun _ => Except.ok ⟨[], []⟩)
        (fun _ => [0]) "/a/b.wasm").trace.countP Ev.isRead) = 2 := by decide

/-- C7 amended: one successful load reads the file from the file system
exactly twice, each read being of the loaded id: introspection performs its
own read and the delivery step (base64 encoding when inline, asset
registration when external) performs another read of the same path. -/
theorem c7_reads_twice (cfg : PluginConfig)
    (compile : List Nat → Except String WasmModuleInfo)
    (fs : String → List Nat) (id : String)
    (hw : jsEndsWith id ".wasm" = true) (pr : ParseResult)
    (hok : parseWasm compile (fs id) = Except.ok pr) :
    ((load cfg compile fs id).trace.countP Ev.isRead) = 2
    ∧ ∀ p, Ev.readFile p ∈ (load cfg compile fs id).trace → p = id := by
  by_cases hinl : shouldInline cfg (fs id).length
  · constructor
    · simp [load, hw, hok, hinl, Ev.isRead]
    · intro p hp
      simp [load, hw, hok, hinl] at hp
      tauto
  · constructor
    · simp [load, hw, hok, hinl, Ev.isRead]
    · intro p hp
      simp [load, hw, hok, hinl] at hp
      tauto

/-- C7 witness: a concrete successful inline load has exactly two reads. -/
theorem c7_reads_twice_witness :
    ((load ⟨14336, TargetEnv.node⟩ (fun _ => Except.ok ⟨[], []⟩)
        (fun _ => [0, 1]) "/x/a.wasm").trace.countP Ev.isRead) = 2 :=
  (c7_reads_twice ⟨14336, TargetEnv.node⟩ (fun _ => Except.ok ⟨[], []⟩)
    (fun _ => [0, 1]) "/x/a.wasm" (by decide) ⟨[], []⟩ rfl).1

/-- C5 counterexample: the claim says no asset file name is derived in a
cycle whose decision is `Inline`, in particular for the node target; with
the node target and a 20000-byte file over the default threshold the
decision is `Inline`, yet `resolveId` derives the hashed asset name and
attaches it to the resolution metadata. -/
theorem c5_counterexample :
    (resolveId ⟨14336, TargetEnv.node⟩ (fun _ => some "/a/big.wasm")
        (fun _ => 20000) "/a/big.wasm").metaWasmPath
      = some (wasmAssetName "/a/big.wasm")
    ∧ placement ⟨14336, TargetEnv.node⟩ 20000 = PlacementDecision.Inline :=
  ⟨rfl, rfl⟩

/-- C5 amended: `resolveId` derives the asset file name exactly when
resolution succeeds, the threshold is positive and the stat size exceeds
it, regardless of the target environment, attaching it as metadata that an
`Inline` load never uses; `load` never emits an asset in an `Inline` cycle,
and in an `External` cycle it registers the original bytes under the asset
file name, as the last effect before returning the shim that references
that name. -/
theorem c5_asset_name_lifecycle (cfg : PluginConfig)
    (resolver : String → Option String) (fsSize : String → Nat)
    (compile : List Nat → Except String WasmModuleInfo)
    (fs : String → List Nat) (source id rid : String)
    (hs : jsEndsWith source ".wasm" = true) (hr : resolver source = some rid)
    (hw : jsEndsWith id ".wasm" = true) (pr : ParseResult)
    (hok : parseWasm compile (fs id) = Except.ok pr) :
    (resolveId cfg resolver fsSize source).metaWasmPath
      = (if 0 < cfg.maxFileSize ∧ cfg.maxFileSize < fsSize rid
         then some (wasmAssetName rid) else none)
    ∧ (placement cfg (fs id).length = PlacementDecision.Inline →
        ∀ e ∈ (load cfg compile fs id).trace, ∀ f s, e ≠ Ev.emitFile f s)
    ∧ (placement cfg (fs id).length = PlacementDecision.External →
        ∃ fileName,
          (load cfg compile fs id).trace.getLast?
              = some (Ev.emitFile fileName (fs id))
          ∧ (load cfg compile fs id).result
              = LoadResult.code (generateWasmInitCode pr.imports pr.exports fileName)) := by
  refine ⟨?_, ?_, ?_⟩
  · simp only [resolveId, hs, if_true, hr]
    split
    · rfl
    · rfl
  · intro hpl e he f s hEq
    subst hEq
    have hinl : shouldInline cfg (fs id).length = true := by
      by_cases hco : shouldInline cfg (fs id).length
      · exact hco
      · simp [placement, hco] at hpl
    simp [load, hw, hok, hinl] at he
  · intro hpl
    have hinl : shouldInline cfg (fs id).length = false := by
      by_cases hco : shouldInline cfg (fs id).length
      · simp [placement, hco] at hpl
      · simpa using hco
    refine ⟨(if 0 < cfg.maxFileSize ∧ cfg.maxFileSize < (fs id).length
        then some (wasmAssetName id) else none).getD (basename id), ?_, ?_⟩
    · simp [load, hw, hok, hinl]
    · simp [load, hw, hok, hinl]

/-- C5 witness: the lifecycle facts at a concrete external browser cycle. -/
theorem c5_asset_name_lifecycle_witness :
    (resolveId ⟨100, TargetEnv.browser⟩ (fun _ => some "/a/big.wasm")
        (fun _ => 200) "/a/big.wasm").metaWasmPath
      = (if 0 < 100 ∧ 100 < 200 then some (wasmAssetName "/a/big.wasm") else none) :=
  (c5_asset_name_lifecycle ⟨100, TargetEnv.browser⟩ (fun _ => some "/a/big.wasm")
    (fun _ => 200) (fun _ => Except.ok ⟨[], []⟩) (fun _ => List.replicate 200 0)
    "/a/big.wasm" "/a/big.wasm" "/a/big.wasm" (by decide) rfl (by decide)
    ⟨[], []⟩ rfl).1

/-- C4 counterexample: the claim says every `External` cycle emits under a
hashed name; with `maxFileSize = 0` and the browser target the decision is
`External` but the emitted asset is named by the plain base name, which has
no dash-hash segment of any hash string. -/
theorem c4_counterexample :
    (load ⟨0, TargetEnv.browser⟩ (fun _ => Except.ok ⟨[], []⟩)
        (fun _ => List.replicate 20 0) "/a/b.wasm").trace
      = [Ev.statSync "/a/b.wasm", Ev.readFile "/a/b.wasm", Ev.statSync "/a/b.wasm",
         Ev.readFile "/a/b.wasm", Ev.emitFile "b.wasm" (List.replicate 20 0)]
    ∧ ∀ h : String, "b.wasm" ≠ "b-" ++ h ++ ".wasm" := by
  constructor
  · decide
  · intro h hEq
    have hlen := congrArg String.length hEq
    rw [String.length_append, String.length_append] at hlen
    have l0 : ("b.wasm" : String).length = 6 := rfl
    have l1 : ("b-" : String).length = 2 := rfl
    have l2 : (".wasm" : String).length = 5 := rfl
    omega

/-- C4 amended: whenever the decision is `External` because a positive
threshold is exceeded, the emitted asset name is the base name without the
`.wasm` extension, a dash, the first 8 characters of the md5 hex digest of
the path string, and `.wasm`; those 8 characters are hex digits; the name
is a function of the path alone, so a load of the same path with different
bytes emits under the same name (when `maxFileSize = 0` the external asset
is instead named by the plain base name). -/
theorem c4_asset_name (cfg : PluginConfig)
    (compile : List Nat → Except String WasmModuleInfo)
    (fs fs2 : String → List Nat) (id : String)
    (hw : jsEndsWith id ".wasm" = true) (pr : ParseResult)
    (hok : parseWasm compile (fs id) = Except.ok pr)
    (hext : placement cfg (fs id).length = PlacementDecision.External)
    (hpos : 0 < cfg.maxFileSize) :
    Ev.emitFile (wasmAssetName id) (fs id) ∈ (load cfg compile fs id).trace
    ∧ wasmAssetName id = basenameExt id ".wasm" ++ "-"
        ++ String.mk ((md5Hex (strBytes id)).data.take 8) ++ ".wasm"
    ∧ ((md5Hex (strBytes id)).data.take 8).length = 8
    ∧ (∀ c ∈ (md5Hex (strBytes id)).data.take 8, c ∈ "0123456789abcdef".data)
    ∧ (∀ pr2, parseWasm compile (fs2 id) = Except.ok pr2 →
        placement cfg (fs2 id).length = PlacementDecision.External →
        Ev.emitFile (wasmAssetName id) (fs2 id) ∈ (load cfg compile fs2 id).trace) := by
  have key : ∀ (fs' : String → List Nat) (pr' : ParseResult),
      parseWasm compile (fs' id) = Except.ok pr' →
      placement cfg (fs' id).length = PlacementDecision.External →
      Ev.emitFile (wasmAssetName id) (fs' id) ∈ (load cfg compile fs' id).trace := by
    intro fs' pr' hok' hext'
    have hinl : shouldInline cfg (fs' id).length = false := by
      by_cases hco : shouldInline cfg (fs' id).length
      · simp [placement, hco] at hext'
      · simpa using hco
    have hgt : cfg.maxFileSize < (fs' id).length := by
      have := hinl
      simp only [shouldInline, Bool.or_eq_false_iff] at this
      rcases this with ⟨h1, _⟩
      rw [if_neg hpos.ne'] at h1
      simpa using h1
    have hmeta : (if 0 < cfg.maxFileSize ∧ cfg.maxFileSize < (fs' id).length
        then some (wasmAssetName id) else none) = some (wasmAssetName id) :=
      if_pos ⟨hpos, hgt⟩
    simp [load, hw, hok', hinl, hmeta]
  refine ⟨key fs pr hok hext, rfl, ?_, ?_, fun pr2 h1 h2 => key fs2 pr2 h1 h2⟩
  · rw [List.length_take, length_md5Hex]
    decide
  · intro c hc
    exact md5Hex_chars (strBytes id) c (List.take_subset 8 _ hc)

/-- C4 witness: the amended naming facts at a concrete external cycle with
two different byte contents of the same path. -/
theorem c4_asset_name_witness :
    Ev.emitFile (wasmAssetName "/a/b.wasm") [0, 0, 0]
      ∈ (load ⟨2, TargetEnv.browser⟩ (fun _ => Except.ok ⟨[], []⟩)
          (fun _ => [0, 0, 0]) "/a/b.wasm").trace
    ∧ Ev.emitFile (wasmAssetName "/a/b.wasm") [1, 1, 1, 1]
      ∈ (load ⟨2, TargetEnv.browser⟩ (fun _ => Except.ok ⟨[], []⟩)
          (fun _ => [1, 1, 1, 1]) "/a/b.wasm").trace :=
  ⟨(c4_asset_name ⟨2, TargetEnv.browser⟩ (fun _ => Except.ok ⟨[], []⟩)
      (fun _ => [0, 0, 0]) (fun _ => [1, 1, 1, 1]) "/a/b.wasm"
      (by decide) ⟨[], []⟩ rfl (by decide) (by decide)).1,
   (c4_asset_name ⟨2, TargetEnv.browser⟩ (fun _ => Except.ok ⟨[], []⟩)
      (fun _ => [0, 0, 0]) (fun _ => [1, 1, 1, 1]) "/a/b.wasm"
      (by decide) ⟨[], []⟩ rfl (by decide) (by decide)).2.2.2.2 ⟨[], []⟩ rfl (by decide)⟩

end WasmPlugin
